import Mathlib

/-!
# unit-9: a REST API over Users and Courses

A shallow embedding of `src/app.js` and the two Sequelize models
(`src/db/models/user.js`, `src/db/models/course.js`, associated in
`src/db/index.js`), followed by theorems about the request pipeline.

* Values that arrive in a parsed request body are `JsVal`s; the handlers test
  them with JavaScript truthiness.
* The database is a `Store`: the rows of the two tables and the two
  auto-increment counters.  Reads are total functions (an unavailable
  database is outside the model).
* `bcrypt` is a parameter (`Bcrypt`): the hash function and its verifier.
* A handler ends in an `Outcome`: it sent a response, it called `next(err)`
  with some status already set, or it threw outside every `try`.
-/

namespace Unit9

/-! ## JavaScript values in a request body -/

/-- A value destructured from `req.body`.  `undefined` is a missing key,
`other` an array or an object (always truthy, its content is not needed).
Numbers are the integers a double holds exactly. -/
inductive JsVal where
  | undefined
  | null
  | bool (b : Bool)
  | num (n : Int)
  | str (s : String)
  | other
  deriving DecidableEq, Repr

/-- JavaScript truthiness: what `if (v)` and `a && b` test. -/
def JsVal.truthy : JsVal → Bool
  | .undefined => false
  | .null => false
  | .bool b => b
  | .num n => n != 0
  | .str s => s != ""
  | .other => true

/-- The JavaScript conversion `String(v)` on scalars, as the validators of
Sequelize apply it before a built-in check and as `RegExp.test` applies it. -/
def JsVal.jsString : JsVal → String
  | .undefined => "undefined"
  | .null => "null"
  | .bool true => "true"
  | .bool false => "false"
  | .num n => toString n
  | .str s => s
  | .other => "[object Object]"

/-- The text SQLite keeps in a STRING/TEXT column for a bound value: text as
it is, a number as its decimal form, a boolean as 1 or 0; `none` is SQL NULL
(what `null` and a missing property become on insert). -/
def JsVal.sqlText : JsVal → Option String
  | .str s => some s
  | .num n => some (toString n)
  | .bool true => some "1"
  | .bool false => some "0"
  | _ => none

/-- The parsed JSON body of a request: the object's properties. -/
abbrev ReqBody := List (String × JsVal)

/-- Destructuring `const { k } = req.body`: the property, or `undefined`. -/
def ReqBody.get (b : ReqBody) (k : String) : JsVal :=
  (b.lookup k).getD JsVal.undefined

/-! ## Regular expressions (for the e-mail validator) -/

/-- Regular expressions over characters, anchored at both ends when matched. -/
inductive Regex where
  | never
  | empty
  | cls (p : Char → Bool)
  | seq (a b : Regex)
  | alt (a b : Regex)
  | star (a : Regex)

namespace Regex

/-- Whether the expression matches the empty string. -/
def nullable : Regex → Bool
  | never => false
  | empty => true
  | cls _ => false
  | seq a b => nullable a && nullable b
  | alt a b => nullable a || nullable b
  | star _ => true

/-- Sequence, dropping a factor that cannot match or matches only the empty string. -/
def mkSeq : Regex → Regex → Regex
  | never, _ => never
  | empty, b => b
  | a, b => seq a b

/-- Choice, dropping a branch that cannot match. -/
def mkAlt : Regex → Regex → Regex
  | never, b => b
  | a, never => a
  | a, b => alt a b

/-- The Brzozowski derivative: what remains to be matched after reading `c`. -/
def deriv (c : Char) : Regex → Regex
  | never => never
  | empty => never
  | cls p => if p c then empty else never
  | seq a b =>
      if nullable a then mkAlt (mkSeq (deriv c a) b) (deriv c b)
      else mkSeq (deriv c a) b
  | alt a b => mkAlt (deriv c a) (deriv c b)
  | star a => mkSeq (deriv c a) (star a)

/-- Whether the whole list of characters matches (`^...$`). -/
def matchesList (r : Regex) (cs : List Char) : Bool :=
  nullable (cs.foldl (fun r c => deriv c r) r)

/-- The same on a string: `/^...$/.test(s)`. -/
def test (r : Regex) (s : String) : Bool := matchesList r s.data

/-- The postfix `+`: one or more. -/
def plus (a : Regex) : Regex := seq a (star a)

/-- The postfix `?`: at most one. -/
def opt (a : Regex) : Regex := alt empty a

/-- A literal character. -/
def lit (c : Char) : Regex := cls (fun x => x == c)

end Regex

/-- The class `\s` of a JavaScript regular expression. -/
def isJsSpace (c : Char) : Bool :=
  let n := c.toNat
  n == 9 || n == 10 || n == 11 || n == 12 || n == 13 || n == 32 || n == 160 ||
  n == 0x1680 || (0x2000 ≤ n && n ≤ 0x200A) || n == 0x2028 || n == 0x2029 ||
  n == 0x202F || n == 0x205F || n == 0x3000 || n == 0xFEFF

/-- The class `.` of a JavaScript regular expression: all but line terminators. -/
def isJsDot (c : Char) : Bool :=
  let n := c.toNat
  !(n == 10 || n == 13 || n == 0x2028 || n == 0x2029)

/-- The class `[^<>()\[\]\\.,;:\s@"]` of the e-mail pattern. -/
def isAtomChar (c : Char) : Bool :=
  !(c == '<' || c == '>' || c == '(' || c == ')' || c == '[' || c == ']' ||
    c == '\\' || c == '.' || c == ',' || c == ';' || c == ':' || isJsSpace c ||
    c == '@' || c == '"')

/-- The class `[0-9]`. -/
def isDigit09 (c : Char) : Bool := 48 ≤ c.toNat && c.toNat ≤ 57

/-- The class `[a-zA-Z]`. -/
def isAsciiLetter (c : Char) : Bool :=
  (97 ≤ c.toNat && c.toNat ≤ 122) || (65 ≤ c.toNat && c.toNat ≤ 90)

/-- The class `[a-zA-Z\-0-9]`. -/
def isLabelChar (c : Char) : Bool := isAsciiLetter c || c == '-' || isDigit09 c

open Regex in
/-- The pattern `[0-9]{1,3}`. -/
def digits13 : Regex := seq (cls isDigit09) (opt (seq (cls isDigit09) (opt (cls isDigit09))))

open Regex in
/-- The local part: `([^...]+(\.[^...]+)*)|(".+")`. -/
def emailLocal : Regex :=
  alt (seq (plus (cls isAtomChar)) (star (seq (lit '.') (plus (cls isAtomChar)))))
      (seq (lit '"') (seq (plus (cls isJsDot)) (lit '"')))

open Regex in
/-- The domain: `(\[d.d.d.d])|(([a-zA-Z\-0-9]+\.)+[a-zA-Z]{2,})`. -/
def emailDomain : Regex :=
  alt (seq (lit '[') (seq digits13 (seq (lit '.') (seq digits13 (seq (lit '.')
        (seq digits13 (seq (lit '.') (seq digits13 (lit ']')))))))))
      (seq (plus (seq (plus (cls isLabelChar)) (lit '.')))
           (seq (cls isAsciiLetter) (seq (cls isAsciiLetter) (star (cls isAsciiLetter)))))

open Regex in
/-- The pattern of `validateEmail` in `user.js`.  Its flag `i` changes
nothing: the classes name both cases of every letter they hold. -/
def emailPattern : Regex := seq emailLocal (seq (lit '@') emailDomain)

/-- The test made by `validateEmail`: it throws exactly when this is false. -/
def validateEmail (value : JsVal) : Bool := emailPattern.test value.jsString

/-- Sequelize's built-in `notEmpty`: the text does not match
`/^[\s\t\r\n]*$/`, that is, it is not made of whitespace only. -/
def notEmpty (s : String) : Bool := !(s.data.all isJsSpace)

/-! ## Errors -/

/-- One entry of a Sequelize validation error: its kind and its message. -/
structure ValidationErrorItem where
  kind : String
  message : String
  deriving DecidableEq, Repr

/-- An error object as the handlers see it: `new Error(message)`, an error
thrown by the engine, or the validation error of the ORM with its entries. -/
inductive JsError where
  | error (message : String)
  | typeError (message : String)
  | validation (items : List ValidationErrorItem)
  deriving DecidableEq, Repr

/-- The property `err.message`.  A validation error joins its entries as
`kind: message`, separated by a comma and a line break. -/
def JsError.message : JsError → String
  | .error m => m
  | .typeError m => m
  | .validation items =>
      String.intercalate ",\n" (items.map (fun i => i.kind ++ ": " ++ i.message))

/-! ## The two tables -/

/-- A row of `Users` (`user.js`), with the timestamps Sequelize adds. -/
structure User where
  id : Nat
  firstName : String
  lastName : String
  emailAddress : String
  password : String
  createdAt : Nat
  updatedAt : Nat
  deriving DecidableEq, Repr

/-- A row of `Courses` (`course.js`).  `userId` is the foreign key added by
`Courses.belongsTo(Users, { foreignKey: "userId" })`; it is nullable. -/
structure Course where
  id : Nat
  title : String
  description : String
  estimatedTime : Option String
  materialsNeeded : Option String
  userId : Option Nat
  createdAt : Nat
  updatedAt : Nat
  deriving DecidableEq, Repr

/-- The database: the rows of both tables and, for each, the largest key the
`autoIncrement` column has handed out so far. -/
structure Store where
  users : List User
  courses : List Course
  userSeq : Nat
  courseSeq : Nat
  deriving DecidableEq, Repr

/-- The database before any request. -/
def Store.empty : Store := { users := [], courses := [], userSeq := 0, courseSeq := 0 }

/-- The next key of an `autoIncrement` primary key: one more than the largest
key ever used and than every key in the table. -/
def nextId (seq : Nat) (ids : List Nat) : Nat := max seq (ids.foldl max 0) + 1

/-! ## Model validation (`allowNull`, `notEmpty`, `validateEmail`) -/

/-- The schema check of an attribute declared `allowNull: false` of type
STRING or TEXT. -/
def schemaRequired (model field : String) : JsVal → List ValidationErrorItem
  | .undefined => [⟨"notNull Violation", model ++ "." ++ field ++ " cannot be null"⟩]
  | .null => [⟨"notNull Violation", model ++ "." ++ field ++ " cannot be null"⟩]
  | .other => [⟨"string violation", field ++ " cannot be an array or an object"⟩]
  | _ => []

/-- The schema check of an attribute declared `allowNull: true` of type STRING. -/
def schemaOptional (field : String) : JsVal → List ValidationErrorItem
  | .other => [⟨"string violation", field ++ " cannot be an array or an object"⟩]
  | _ => []

/-- The validator `notEmpty: true` on an attribute; validators are skipped on
a null value. -/
def checkNotEmpty (field : String) : JsVal → List ValidationErrorItem
  | .undefined => []
  | .null => []
  | v =>
      if notEmpty v.jsString then []
      else [⟨"Validation error", "Validation notEmpty on " ++ field ++ " failed"⟩]

/-- The custom validator `validateEmail` of `emailAddress`: it throws
`new Error("Invalid email address")` when the pattern does not match. -/
def checkEmail : JsVal → List ValidationErrorItem
  | .undefined => []
  | .null => []
  | v => if validateEmail v then [] else [⟨"Validation error", "Invalid email address"⟩]

/-- The object handed to `Users.create` by the registration handler. -/
structure UserValues where
  firstName : JsVal
  lastName : JsVal
  emailAddress : JsVal
  password : JsVal

/-- The object handed to `Courses.create` and `Courses.update`. -/
structure CourseValues where
  userId : Nat
  title : JsVal
  description : JsVal
  estimatedTime : JsVal
  materialsNeeded : JsVal

/-- Every entry the `Users` model raises against the values. -/
def Users.validate (t : UserValues) : List ValidationErrorItem :=
  schemaRequired "Users" "firstName" t.firstName ++
  schemaRequired "Users" "lastName" t.lastName ++
  schemaRequired "Users" "emailAddress" t.emailAddress ++
  schemaRequired "Users" "password" t.password ++
  checkNotEmpty "firstName" t.firstName ++
  checkNotEmpty "lastName" t.lastName ++
  checkNotEmpty "emailAddress" t.emailAddress ++ checkEmail t.emailAddress ++
  checkNotEmpty "password" t.password

/-- Every entry the `Courses` model raises against the values. -/
def Courses.validate (t : CourseValues) : List ValidationErrorItem :=
  schemaRequired "Courses" "title" t.title ++
  schemaRequired "Courses" "description" t.description ++
  schemaOptional "estimatedTime" t.estimatedTime ++
  schemaOptional "materialsNeeded" t.materialsNeeded ++
  checkNotEmpty "title" t.title ++
  checkNotEmpty "description" t.description

/-! ## Model operations -/

/-- `Users.findOne({ where: { emailAddress } })` for a text: the first row
whose address is exactly that text. -/
def Users.findOne (s : Store) (email : String) : Option User :=
  s.users.find? (fun u => u.emailAddress == email)

/-- The same lookup for a value taken from a body: it is compared as the text
SQLite makes of it (the operators an array or an object would denote are
not modelled: such a value selects no row). -/
def Users.findOneWhere (s : Store) (email : JsVal) : Option User :=
  match email.sqlText with
  | some e => Users.findOne s e
  | none => none

/-- `Users.findByPk`, used by the join of a course with its owner. -/
def Users.findByPk (s : Store) (id : Nat) : Option User :=
  s.users.find? (fun u => u.id == id)

/-- `Courses.findByPk(id)`: the row with that key, or `null`. -/
def Courses.findByPk (s : Store) (id : Nat) : Option Course :=
  s.courses.find? (fun c => c.id == id)

/-- `Users.create(temp)`: validate, then insert with a fresh key.  After
validation every value is a scalar, so each has a text. -/
def Users.create (now : Nat) (s : Store) (t : UserValues) : Except JsError (User × Store) :=
  match Users.validate t with
  | [] =>
      let u : User :=
        { id := nextId s.userSeq (s.users.map (fun u => u.id)),
          firstName := t.firstName.sqlText.getD "",
          lastName := t.lastName.sqlText.getD "",
          emailAddress := t.emailAddress.sqlText.getD "",
          password := t.password.sqlText.getD "",
          createdAt := now, updatedAt := now }
      .ok (u, { s with users := s.users ++ [u], userSeq := u.id })
  | e :: es => .error (.validation (e :: es))

/-- `Courses.create(temp)`: validate, then insert with a fresh key. -/
def Courses.create (now : Nat) (s : Store) (t : CourseValues) : Except JsError (Course × Store) :=
  match Courses.validate t with
  | [] =>
      let c : Course :=
        { id := nextId s.courseSeq (s.courses.map (fun c => c.id)),
          title := t.title.sqlText.getD "",
          description := t.description.sqlText.getD "",
          estimatedTime := t.estimatedTime.sqlText,
          materialsNeeded := t.materialsNeeded.sqlText,
          userId := some t.userId,
          createdAt := now, updatedAt := now }
      .ok (c, { s with courses := s.courses ++ [c], courseSeq := c.id })
  | e :: es => .error (.validation (e :: es))

/-- The new value of an optional column in an update: a missing property is
left out of the statement, so the column keeps its value. -/
def updatedOptional (old : Option String) : JsVal → Option String
  | .undefined => old
  | v => v.sqlText

/-- One row after `Courses.update(temp, ...)` touched it. -/
def Course.updated (now : Nat) (t : CourseValues) (c : Course) : Course :=
  { c with
    userId := some t.userId,
    title := t.title.sqlText.getD "",
    description := t.description.sqlText.getD "",
    estimatedTime := updatedOptional c.estimatedTime t.estimatedTime,
    materialsNeeded := updatedOptional c.materialsNeeded t.materialsNeeded,
    updatedAt := now }

/-- `Courses.update(temp, { where: { id } })`: validate, then rewrite every
row with that key. -/
def Courses.update (now : Nat) (s : Store) (t : CourseValues) (id : Nat) : Except JsError Store :=
  match Courses.validate t with
  | [] =>
      .ok { s with courses := s.courses.map (fun c => if c.id == id then c.updated now t else c) }
  | e :: es => .error (.validation (e :: es))

/-- `Courses.destroy({ where: { id } })`: delete every row with that key. -/
def Courses.destroy (s : Store) (id : Nat) : Store :=
  { s with courses := s.courses.filter (fun c => !(c.id == id)) }

/-! ## bcrypt and Basic credentials -/

/-- The password hashing library: `hashSync(p, 10)` with its salt fixed, and
`compareSync`.  A bcrypt hash is a 60-character string of printable
characters, so it passes `notEmpty`. -/
structure Bcrypt where
  hashSync : String → String
  compareSync : String → String → Bool
  hash_notEmpty : ∀ p, notEmpty (hashSync p) = true

/-- The call `bcrypt.hashSync(password, 10)` on a body value: the library
throws unless the data is a string. -/
def Bcrypt.hashSyncVal (lib : Bcrypt) : JsVal → Except JsError String
  | .str p => .ok (lib.hashSync p)
  | _ => .error (.error
      "data must be a string or Buffer and salt must either be a salt string or a number of rounds")

/-- What `auth(req)` of `basic-auth` returns when the header parses. -/
structure Credentials where
  name : String
  pass : String
  deriving DecidableEq, Repr

/-! ## Responses -/

/-- The joined course of `findAll`/`findByPk` with `include: Users`, as it is
serialised; `owner` is the property `User` (null when no row matches). -/
structure CourseJson where
  id : Nat
  title : String
  description : String
  estimatedTime : Option String
  materialsNeeded : Option String
  userId : Option Nat
  owner : Option (List (String × JsVal))
  deriving DecidableEq, Repr

/-- What is written as the body of a response. -/
inductive Payload where
  | none
  | text (s : String)
  | message (m : String)
  | error (message : String) (err : JsError)
  | object (fields : List (String × JsVal))
  | course (c : CourseJson)
  | courses (cs : List CourseJson)
  deriving DecidableEq, Repr

/-- A response: status code, `Location` header, body. -/
structure Response where
  status : Nat
  location : Option String
  body : Payload
  deriving DecidableEq, Repr

/-- The reason phrase of a status code, or the code itself as text. -/
def statusMessage (code : Nat) : String :=
  if code == 200 then "OK" else if code == 201 then "Created"
  else if code == 204 then "No Content" else if code == 400 then "Bad Request"
  else if code == 401 then "Unauthorized" else if code == 403 then "Forbidden"
  else if code == 404 then "Not Found" else if code == 409 then "Conflict"
  else if code == 500 then "Internal Server Error" else toString code

/-- `res.sendStatus(code)`, after an optional `res.location(...)`: the status
is set and its reason phrase is sent as the body. -/
def sendStatus (code : Nat) (location : Option String) : Response :=
  { status := code, location := location, body := .text (statusMessage code) }

/-- How a route handler ends. -/
inductive Outcome where
  | sent (r : Response)
  | next (status : Nat) (err : JsError)
  | thrown (err : JsError)
  deriving DecidableEq, Repr

/-- The global error handler (the last `app.use`): `statusCode` is the status
of the response when the error arrives.  The optional logging of the stack
writes to the console only. -/
def errorHandler (statusCode : Nat) (err : JsError) : Response :=
  { status := if statusCode == 200 || statusCode == 201 then 500 else statusCode,
    location := none,
    body := .error err.message err }

/-- What the client receives: the response sent, the response of the global
error handler after `next(err)`, or nothing when the handler threw outside
every `try` (the rejection is not handled). -/
def finish : Outcome → Option Response
  | .sent r => some r
  | .next status err => some (errorHandler status err)
  | .thrown _ => none

/-! ## The authentication middleware -/

/-- How `authenticateUser` ends: it answered itself, it called `next(err)`
with a status set, or it set `req.user` and called `next()`. -/
inductive AuthResult where
  | rejected (r : Response)
  | failed (status : Nat) (err : JsError)
  | next (user : User)
  deriving DecidableEq, Repr

/-- The middleware `authenticateUser` of `app.js`. -/
def authenticateUser (lib : Bcrypt) (s : Store) : Option Credentials → AuthResult
  | some credentials =>
      let email := credentials.name
      let password := credentials.pass
      match Users.findOne s email with
      | some user =>
          if lib.compareSync password user.password then .next user
          else .rejected (sendStatus 401 none)
      | none => .failed 403 (.error ("No user found with the email " ++ email))
  | none => .rejected (sendStatus 401 none)

/-- A route guarded by `authenticateUser`: the handler runs only after `next()`. -/
def withAuth (r : AuthResult) (s : Store) (k : User → Store × Outcome) : Store × Outcome :=
  match r with
  | .rejected res => (s, .sent res)
  | .failed status err => (s, .next status err)
  | .next user => k user

/-! ## Route handlers -/

/-- The projection of a user to `id`, `firstName`, `lastName`, `emailAddress`. -/
def userJson (u : User) : List (String × JsVal) :=
  [("id", .num u.id), ("firstName", .str u.firstName), ("lastName", .str u.lastName),
   ("emailAddress", .str u.emailAddress)]

/-- Handler of `GET /api/users`, after authentication. -/
def getUsers (user : User) : Outcome :=
  .sent { status := 200, location := none, body := .object (userJson user) }

/-- Handler of `POST /api/users`. -/
def postUsers (lib : Bcrypt) (now : Nat) (s : Store) (body : ReqBody) : Store × Outcome :=
  let firstName := body.get "firstName"
  let lastName := body.get "lastName"
  let emailAddress := body.get "emailAddress"
  let password := body.get "password"
  if firstName.truthy && lastName.truthy && emailAddress.truthy && password.truthy then
    match Users.findOneWhere s emailAddress with
    | some _ =>
        (s, .next 409 (.error ("User with email " ++ emailAddress.jsString ++ " already exists!")))
    | none =>
        match lib.hashSyncVal password with
        | .error err => (s, .thrown err)
        | .ok hash =>
            match Users.create now s
                { firstName := firstName, lastName := lastName,
                  emailAddress := emailAddress, password := .str hash } with
            | .ok (_, s') => (s', .sent (sendStatus 201 (some "/")))
            | .error err => (s, .next 400 err)
  else (s, .next 400 (.error "Invalid input"))

/-- The course joined with the listed attributes of its owner. -/
def courseJson (s : Store) (c : Course) : CourseJson :=
  { id := c.id, title := c.title, description := c.description,
    estimatedTime := c.estimatedTime, materialsNeeded := c.materialsNeeded,
    userId := c.userId,
    owner := (c.userId.bind (Users.findByPk s)).map userJson }

/-- Handler of `GET /api/courses`. -/
def getCourses (s : Store) : Outcome :=
  .sent { status := 200, location := none, body := .courses (s.courses.map (courseJson s)) }

/-- Handler of `GET /api/courses/:id`. -/
def getCourse (s : Store) (id : Nat) : Outcome :=
  match Courses.findByPk s id with
  | some course => .sent { status := 200, location := none, body := .course (courseJson s course) }
  | none => .next 404 (.error ("No course found with the id " ++ toString id))

/-- Handler of `POST /api/courses`, after authentication. -/
def postCourses (now : Nat) (s : Store) (user : User) (body : ReqBody) : Store × Outcome :=
  let title := body.get "title"
  let description := body.get "description"
  let estimatedTime := body.get "estimatedTime"
  let materialsNeeded := body.get "materialsNeeded"
  if title.truthy && description.truthy then
    match Courses.create now s
        { userId := user.id, title := title, description := description,
          estimatedTime := estimatedTime, materialsNeeded := materialsNeeded } with
    | .ok (course, s') =>
        (s', .sent (sendStatus 201 (some ("/api/courses/" ++ toString course.id))))
    | .error err => (s, .next 400 err)
  else (s, .next 400 (.error "Invalid input"))

/-- The error the engine throws on `course.userId` when `course` is `null`. -/
def nullUserId : JsError := .typeError "Cannot read property 'userId' of null"

/-- Handler of `PUT /api/courses/:id`, after authentication.  When no course
has the key, reading `course.userId` throws inside the outer `try`, whose
`catch` calls `next(err)` with the status still 200. -/
def putCourse (now : Nat) (s : Store) (user : User) (id : Nat) (body : ReqBody) :
    Store × Outcome :=
  let title := body.get "title"
  let description := body.get "description"
  let estimatedTime := body.get "estimatedTime"
  let materialsNeeded := body.get "materialsNeeded"
  if title.truthy && description.truthy then
    match Courses.findByPk s id with
    | none => (s, .next 200 nullUserId)
    | some course =>
        if course.userId = some user.id then
          match Courses.update now s
              { userId := user.id, title := title, description := description,
                estimatedTime := estimatedTime, materialsNeeded := materialsNeeded } id with
          | .ok s' => (s', .sent { status := 204, location := none, body := .none })
          | .error err => (s, .next 400 err)
        else (s, .sent (sendStatus 403 none))
  else (s, .next 400 (.error "Invalid input"))

/-- Handler of `DELETE /api/courses/:id`, after authentication. -/
def deleteCourse (s : Store) (user : User) (id : Nat) : Store × Outcome :=
  match Courses.findByPk s id with
  | none => (s, .next 200 nullUserId)
  | some course =>
      if course.userId = some user.id then
        (Courses.destroy s id, .sent { status := 204, location := none, body := .none })
      else (s, .sent (sendStatus 403 none))

/-! ## The application -/

/-- A request to the API: its route, the parsed `Authorization` header where
the route is guarded, the parsed body where the handler reads it.  The
segment `:id` of a path is the key it denotes. -/
inductive Request where
  | root
  | getUsers (auth : Option Credentials)
  | postUsers (body : ReqBody)
  | getCourses
  | getCourse (id : Nat)
  | postCourses (auth : Option Credentials) (body : ReqBody)
  | putCourse (auth : Option Credentials) (id : Nat) (body : ReqBody)
  | deleteCourse (auth : Option Credentials) (id : Nat)
  | unmatched

/-- Routing: the middleware chain of each route, up to the point where a
response is sent or `next(err)` is called. -/
def route (lib : Bcrypt) (now : Nat) (s : Store) : Request → Store × Outcome
  | .root =>
      (s, .sent { status := 200, location := none,
                  body := .message "Welcome to the REST API project!" })
  | .getUsers auth => withAuth (authenticateUser lib s auth) s (fun user => (s, getUsers user))
  | .postUsers body => postUsers lib now s body
  | .getCourses => (s, getCourses s)
  | .getCourse id => (s, getCourse s id)
  | .postCourses auth body =>
      withAuth (authenticateUser lib s auth) s (fun user => postCourses now s user body)
  | .putCourse auth id body =>
      withAuth (authenticateUser lib s auth) s (fun user => putCourse now s user id body)
  | .deleteCourse auth id =>
      withAuth (authenticateUser lib s auth) s (fun user => deleteCourse s user id)
  | .unmatched =>
      (s, .sent { status := 404, location := none, body := .message "Route Not Found" })

/-- One request served at time `now`: the database afterwards and what the
client receives. -/
def app (lib : Bcrypt) (now : Nat) (s : Store) (req : Request) : Store × Option Response :=
  let r := route lib now s req
  (r.1, finish r.2)

/-- The databases the API can reach from the empty one. -/
inductive Reachable (lib : Bcrypt) : Store → Prop where
  | init : Reachable lib Store.empty
  | step {s : Store} (now : Nat) (req : Request) :
      Reachable lib s → Reachable lib (app lib now s req).1

/-- Every course is owned by a user of the database. -/
def OwnersExist (s : Store) : Prop :=
  ∀ c ∈ s.courses, ∃ u ∈ s.users, c.userId = some u.id

/-! ## Concrete data for the examples -/

/-- A stand-in for bcrypt with a fixed salt: the hash is the salt prefix
followed by the password. -/
def demoBcrypt : Bcrypt where
  hashSync p := "$2b$10$" ++ p
  compareSync p h := h == "$2b$10$" ++ p
  hash_notEmpty := by
    intro p
    simp [notEmpty, String.data_append, isJsSpace]

/-- A registered user, Ada, with key 1 and password `pw1`. -/
def ada : User :=
  { id := 1, firstName := "Ada", lastName := "Lovelace", emailAddress := "ada@example.com",
    password := "$2b$10$pw1", createdAt := 0, updatedAt := 0 }

/-- A second registered user, Bob, with key 2 and password `pw2`. -/
def bob : User :=
  { id := 2, firstName := "Bob", lastName := "Stone", emailAddress := "bob@example.com",
    password := "$2b$10$pw2", createdAt := 0, updatedAt := 0 }

/-- A course of Ada, with key 1. -/
def adaCourse : Course :=
  { id := 1, title := "Logic", description := "An introduction", estimatedTime := none,
    materialsNeeded := none, userId := some 1, createdAt := 0, updatedAt := 0 }

/-- A database with two users and one course, owned by the first. -/
def demoStore : Store :=
  { users := [ada, bob], courses := [adaCourse], userSeq := 2, courseSeq := 1 }

/-- The database after Eve registered in the empty database and created a course. -/
def eveStore : Store :=
  (app demoBcrypt 2 (app demoBcrypt 1 Store.empty
      (Request.postUsers
        [("firstName", JsVal.str "Eve"), ("lastName", JsVal.str "Hill"),
         ("emailAddress", JsVal.str "eve@example.com"), ("password", JsVal.str "secret")])).1
    (Request.postCourses (some ⟨"eve@example.com", "secret"⟩)
      [("title", JsVal.str "T"), ("description", JsVal.str "D")])).1

/-! ## Theorems -/

/-- C5: the global error handler turns a status of 200 or 201 into 500 and
keeps every other status (so 400, 403, 404 and 409 come out unchanged); the
`message` of its JSON body is the message of the error in both cases. -/
theorem errorHandler_status_and_message (s : Nat) (err : JsError) :
    ((s = 200 ∨ s = 201) → (errorHandler s err).status = 500) ∧
    ((s ≠ 200 ∧ s ≠ 201) → (errorHandler s err).status = s) ∧
    (errorHandler 400 err).status = 400 ∧ (errorHandler 403 err).status = 403 ∧
    (errorHandler 404 err).status = 404 ∧ (errorHandler 409 err).status = 409 ∧
    (errorHandler s err).body = Payload.error err.message err := by
  refine ⟨?_, ?_, rfl, rfl, rfl, rfl, rfl⟩
  · rintro (h | h) <;> simp [errorHandler, h]
  · rintro ⟨h1, h2⟩
    simp [errorHandler, h1, h2]

/-- Witness of C5: a default status of 200 becomes 500 and a status of 404,
set before the error, is kept. -/
theorem errorHandler_status_and_message_witness :
    (errorHandler 200 (JsError.error "boom")).status = 500 ∧
    (errorHandler 404 (JsError.error "boom")).status = 404 :=
  ⟨(errorHandler_status_and_message 200 (JsError.error "boom")).1 (Or.inl rfl),
   (errorHandler_status_and_message 404 (JsError.error "boom")).2.1 ⟨by decide, by decide⟩⟩

/-- The lookup by address returns a row of the table with that address. -/
theorem Users.findOne_some {s : Store} {email : String} {u : User}
    (h : Users.findOne s email = some u) : u ∈ s.users ∧ u.emailAddress = email := by
  unfold Users.findOne at h
  exact ⟨List.mem_of_find?_eq_some h, by simpa using List.find?_some h⟩

/-- The lookup by address finds nothing exactly when no row has the address. -/
theorem Users.findOne_none {s : Store} {email : String} :
    Users.findOne s email = none ↔ ∀ u ∈ s.users, u.emailAddress ≠ email := by
  simp [Users.findOne, List.find?_eq_none]

/-- C1: the four ways `authenticateUser` ends.  Without Basic credentials it
answers 401 itself; with credentials whose name is the address of no user it
sets 403 and forwards the error `No user found with the email <email>`; when
a user has that address, the lookup returns one such row, and then either the
password does not verify against its hash and the middleware answers 401
itself, or it verifies and that row is attached and `next()` is called. -/
theorem authenticateUser_outcomes (lib : Bcrypt) (s : Store) (auth : Option Credentials) :
    (auth = none →
      authenticateUser lib s auth = AuthResult.rejected (sendStatus 401 none) ∧
      (sendStatus 401 none).status = 401) ∧
    (∀ c, auth = some c → (∀ u ∈ s.users, u.emailAddress ≠ c.name) →
      authenticateUser lib s auth =
        AuthResult.failed 403 (JsError.error ("No user found with the email " ++ c.name))) ∧
    (∀ c, auth = some c → (∃ u ∈ s.users, u.emailAddress = c.name) →
      ∃ u, Users.findOne s c.name = some u ∧ u ∈ s.users ∧ u.emailAddress = c.name ∧
        (lib.compareSync c.pass u.password = false →
          authenticateUser lib s auth = AuthResult.rejected (sendStatus 401 none)) ∧
        (lib.compareSync c.pass u.password = true →
          authenticateUser lib s auth = AuthResult.next u)) := by
  refine ⟨?_, ?_, ?_⟩
  · rintro rfl
    exact ⟨rfl, rfl⟩
  · rintro c rfl hnone
    have h := Users.findOne_none.mpr hnone
    simp [authenticateUser, h]
  · rintro c rfl hex
    cases hfind : Users.findOne s c.name with
    | none =>
        obtain ⟨u, hu, he⟩ := hex
        exact absurd he (Users.findOne_none.mp hfind u hu)
    | some u =>
        obtain ⟨hmem, hmail⟩ := Users.findOne_some hfind
        refine ⟨u, rfl, hmem, hmail, ?_, ?_⟩
        · intro hcmp
          simp [authenticateUser, hfind, hcmp]
        · intro hcmp
          simp [authenticateUser, hfind, hcmp]

/-- Witness of C1: with Ada and Bob registered, no header gives 401, an
unknown address gives 403 with the message naming it, a wrong password for
Bob gives 401 and the right one attaches Bob. -/
theorem authenticateUser_outcomes_witness :
    authenticateUser demoBcrypt demoStore none = AuthResult.rejected (sendStatus 401 none) ∧
    authenticateUser demoBcrypt demoStore (some ⟨"eve@example.com", "pw"⟩) =
      AuthResult.failed 403 (JsError.error "No user found with the email eve@example.com") ∧
    authenticateUser demoBcrypt demoStore (some ⟨"bob@example.com", "nope"⟩) =
      AuthResult.rejected (sendStatus 401 none) ∧
    authenticateUser demoBcrypt demoStore (some ⟨"bob@example.com", "pw2"⟩) =
      AuthResult.next bob := by
  refine ⟨((authenticateUser_outcomes demoBcrypt demoStore none).1 rfl).1,
    (authenticateUser_outcomes demoBcrypt demoStore (some ⟨"eve@example.com", "pw"⟩)).2.1
      ⟨"eve@example.com", "pw"⟩ rfl (by decide), ?_, ?_⟩
  · obtain ⟨u, hu, -, -, hbad, -⟩ :=
      (authenticateUser_outcomes demoBcrypt demoStore (some ⟨"bob@example.com", "nope"⟩)).2.2
        ⟨"bob@example.com", "nope"⟩ rfl ⟨bob, by decide, by decide⟩
    have hb : u = bob := by
      have : Users.findOne demoStore "bob@example.com" = some bob := by decide
      rw [this] at hu
      exact (Option.some.inj hu).symm
    subst hb
    exact hbad (by decide)
  · obtain ⟨u, hu, -, -, -, hgood⟩ :=
      (authenticateUser_outcomes demoBcrypt demoStore (some ⟨"bob@example.com", "pw2"⟩)).2.2
        ⟨"bob@example.com", "pw2"⟩ rfl ⟨bob, by decide, by decide⟩
    have hb : u = bob := by
      have : Users.findOne demoStore "bob@example.com" = some bob := by decide
      rw [this] at hu
      exact (Option.some.inj hu).symm
    subst hb
    exact hgood (by decide)

/-- C9: after a successful authentication `GET /api/users` answers 200 with
the object whose keys are exactly `id`, `firstName`, `lastName` and
`emailAddress`, each holding the value of the attached record; `password`,
`createdAt` and `updatedAt` are not among its keys. -/
theorem getUsers_projection (lib : Bcrypt) (now : Nat) (s : Store)
    (auth : Option Credentials) (u : User)
    (hauth : authenticateUser lib s auth = AuthResult.next u) :
    app lib now s (Request.getUsers auth) =
      (s, some { status := 200, location := none,
                 body := Payload.object
                   [("id", JsVal.num u.id), ("firstName", JsVal.str u.firstName),
                    ("lastName", JsVal.str u.lastName),
                    ("emailAddress", JsVal.str u.emailAddress)] }) ∧
    (userJson u).map Prod.fst = ["id", "firstName", "lastName", "emailAddress"] ∧
    "password" ∉ (userJson u).map Prod.fst ∧
    "createdAt" ∉ (userJson u).map Prod.fst ∧
    "updatedAt" ∉ (userJson u).map Prod.fst := by
  refine ⟨?_, rfl, ?_, ?_, ?_⟩
  · simp [app, route, hauth, withAuth, getUsers, finish, userJson]
  · simp [userJson]
  · simp [userJson]
  · simp [userJson]

/-- Witness of C9: Bob, authenticated with his password, reads his own four
fields. -/
theorem getUsers_projection_witness :
    (app demoBcrypt 5 demoStore (Request.getUsers (some ⟨"bob@example.com", "pw2"⟩))).2 =
      some { status := 200, location := none,
             body := Payload.object
               [("id", JsVal.num 2), ("firstName", JsVal.str "Bob"),
                ("lastName", JsVal.str "Stone"),
                ("emailAddress", JsVal.str "bob@example.com")] } :=
  congrArg Prod.snd
    (getUsers_projection demoBcrypt 5 demoStore (some ⟨"bob@example.com", "pw2"⟩) bob
      (by decide)).1

/-- A key held by some user is found by the lookup by key. -/
theorem Users.findByPk_of_mem {s : Store} {u : User} (hu : u ∈ s.users) :
    ∃ v, Users.findByPk s u.id = some v ∧ v ∈ s.users ∧ v.id = u.id := by
  cases hfind : Users.findByPk s u.id with
  | none =>
      unfold Users.findByPk at hfind
      have := List.find?_eq_none.mp hfind u hu
      simp at this
  | some v =>
      unfold Users.findByPk at hfind
      exact ⟨v, rfl, List.mem_of_find?_eq_some hfind, by simpa using List.find?_some hfind⟩

/-- The lookup of a user by key finds nothing exactly when no user has the key. -/
theorem Users.findByPk_no_user {s : Store} {k : Nat} :
    Users.findByPk s k = none ↔ ∀ u ∈ s.users, u.id ≠ k := by
  simp [Users.findByPk, List.find?_eq_none]

/-- The lookup by key returns a row of the table with that key. -/
theorem Courses.findByPk_some {s : Store} {id : Nat} {c : Course}
    (h : Courses.findByPk s id = some c) : c ∈ s.courses ∧ c.id = id := by
  unfold Courses.findByPk at h
  exact ⟨List.mem_of_find?_eq_some h, by simpa using List.find?_some h⟩

/-- The lookup by key finds nothing exactly when no row has the key. -/
theorem Courses.findByPk_none {s : Store} {id : Nat} :
    Courses.findByPk s id = none ↔ ∀ c ∈ s.courses, c.id ≠ id := by
  simp [Courses.findByPk, List.find?_eq_none]

/-- C10: `GET /api/courses/:id` never changes the database; it answers 200
exactly when a course has the key, and then the body is that course joined
with its owner: when its `userId` is the id of a user of the database, the
property `User` holds the `id`, `firstName`, `lastName` and `emailAddress`
of a user with that id, and when no user has that id it is null; when no
course has the key the final response, after the global error handler, is
404 with the message `No course found with the id <id>`. -/
theorem getCourse_found_iff (lib : Bcrypt) (now : Nat) (s : Store) (id : Nat) :
    (app lib now s (Request.getCourse id)).1 = s ∧
    ((∃ c ∈ s.courses, c.id = id) ↔
      ∃ r, (app lib now s (Request.getCourse id)).2 = some r ∧ r.status = 200) ∧
    ((∃ c ∈ s.courses, c.id = id) →
      ∃ c, c ∈ s.courses ∧ c.id = id ∧
        (app lib now s (Request.getCourse id)).2 =
          some { status := 200, location := none,
                 body := Payload.course
                   { id := c.id, title := c.title, description := c.description,
                     estimatedTime := c.estimatedTime, materialsNeeded := c.materialsNeeded,
                     userId := c.userId,
                     owner := (c.userId.bind (Users.findByPk s)).map (fun u =>
                       [("id", JsVal.num u.id), ("firstName", JsVal.str u.firstName),
                        ("lastName", JsVal.str u.lastName),
                        ("emailAddress", JsVal.str u.emailAddress)]) } } ∧
        (∀ u ∈ s.users, c.userId = some u.id →
          ∃ v ∈ s.users, v.id = u.id ∧
            (app lib now s (Request.getCourse id)).2 =
              some { status := 200, location := none,
                     body := Payload.course
                       { id := c.id, title := c.title, description := c.description,
                         estimatedTime := c.estimatedTime,
                         materialsNeeded := c.materialsNeeded,
                         userId := some v.id,
                         owner := some
                           [("id", JsVal.num v.id), ("firstName", JsVal.str v.firstName),
                            ("lastName", JsVal.str v.lastName),
                            ("emailAddress", JsVal.str v.emailAddress)] } }) ∧
        ((∀ u ∈ s.users, c.userId ≠ some u.id) →
          (app lib now s (Request.getCourse id)).2 =
            some { status := 200, location := none,
                   body := Payload.course
                     { id := c.id, title := c.title, description := c.description,
                       estimatedTime := c.estimatedTime,
                       materialsNeeded := c.materialsNeeded,
                       userId := c.userId, owner := none } })) ∧
    ((¬ ∃ c ∈ s.courses, c.id = id) →
      (app lib now s (Request.getCourse id)).2 =
        some { status := 404, location := none,
               body := Payload.error ("No course found with the id " ++ toString id)
                 (JsError.error ("No course found with the id " ++ toString id)) }) := by
  cases hfind : Courses.findByPk s id with
  | none =>
      have hno : ¬ ∃ c ∈ s.courses, c.id = id := by
        rintro ⟨c, hc, hid⟩
        exact Courses.findByPk_none.mp hfind c hc hid
      have hresp : (app lib now s (Request.getCourse id)).2 =
          some { status := 404, location := none,
                 body := Payload.error ("No course found with the id " ++ toString id)
                   (JsError.error ("No course found with the id " ++ toString id)) } := by
        simp [app, route, getCourse, hfind, finish, errorHandler, JsError.message]
      refine ⟨rfl, ⟨fun h => absurd h hno, ?_⟩, fun h => absurd h hno, fun _ => hresp⟩
      rintro ⟨r, hr, hst⟩
      rw [hresp] at hr
      have := Option.some.inj hr
      subst this
      simp at hst
  | some c =>
      obtain ⟨hmem, hid⟩ := Courses.findByPk_some hfind
      have hresp : (app lib now s (Request.getCourse id)).2 =
          some { status := 200, location := none,
                 body := Payload.course (courseJson s c) } := by
        simp [app, route, getCourse, hfind, finish]
      refine ⟨rfl, ⟨fun _ => ⟨_, hresp, rfl⟩, fun _ => ⟨c, hmem, hid⟩⟩,
        fun _ => ⟨c, hmem, hid, ?_, ?_, ?_⟩, fun h => absurd ⟨c, hmem, hid⟩ h⟩
      · rw [hresp]
        rfl
      · intro u hu huid
        obtain ⟨v, hv, hvm, hvid⟩ := Users.findByPk_of_mem hu
        refine ⟨v, hvm, hvid, ?_⟩
        rw [hresp]
        simp [courseJson, huid, hv, userJson, hvid]
      · intro hnone
        rw [hresp]
        cases huid : c.userId with
        | none => simp [courseJson, huid]
        | some k =>
            have hk : Users.findByPk s k = none :=
              Users.findByPk_no_user.mpr (fun u hu hk => hnone u hu (by rw [huid, hk]))
            simp [courseJson, huid, hk]

/-- Witness of C10: in the demo database course 1 is returned joined with
its owner Ada, and the unknown key 999999 gives 404 with the key in the
message. -/
theorem getCourse_found_iff_witness :
    (app demoBcrypt 0 demoStore (Request.getCourse 1)).2 =
      some { status := 200, location := none,
             body := Payload.course
               { id := 1, title := "Logic", description := "An introduction",
                 estimatedTime := none, materialsNeeded := none, userId := some 1,
                 owner := some
                   [("id", JsVal.num 1), ("firstName", JsVal.str "Ada"),
                    ("lastName", JsVal.str "Lovelace"),
                    ("emailAddress", JsVal.str "ada@example.com")] } } ∧
    (app demoBcrypt 0 demoStore (Request.getCourse 999999)).2 =
      some { status := 404, location := none,
             body := Payload.error ("No course found with the id " ++ toString 999999)
               (JsError.error ("No course found with the id " ++ toString 999999)) } := by
  refine ⟨?_, (getCourse_found_iff demoBcrypt 0 demoStore 999999).2.2.2 (by decide)⟩
  obtain ⟨c, hc, hid, -, hown, -⟩ :=
    (getCourse_found_iff demoBcrypt 0 demoStore 1).2.2.1 ⟨adaCourse, by decide, rfl⟩
  have hca : c = adaCourse := by
    simpa [demoStore] using hc
  subst hca
  obtain ⟨v, hv, hvid, hresp⟩ := hown ada (by decide) rfl
  have hva : v = ada := by
    have hv2 : v = ada ∨ v = bob := by simpa [demoStore] using hv
    rcases hv2 with h | h
    · exact h
    · subst h
      exact absurd hvid (by decide)
  subst hva
  exact hresp

/-- C7: an authenticated `POST /api/courses` whose `title` or `description`
is missing or empty (not truthy) ends, after the global error handler, in
status 400 with the message `Invalid input`, and the database is unchanged. -/
theorem postCourses_invalid_input (lib : Bcrypt) (now : Nat) (s : Store)
    (auth : Option Credentials) (u : User) (body : ReqBody)
    (hauth : authenticateUser lib s auth = AuthResult.next u)
    (hmiss : (body.get "title").truthy = false ∨ (body.get "description").truthy = false) :
    app lib now s (Request.postCourses auth body) =
      (s, some { status := 400, location := none,
                 body := Payload.error "Invalid input" (JsError.error "Invalid input") }) := by
  have hcond : ((body.get "title").truthy && (body.get "description").truthy) = false := by
    rcases hmiss with h | h <;> simp [h]
  simp [app, route, hauth, withAuth, postCourses, hcond, finish, errorHandler, JsError.message]

/-- Witness of C7: Bob posts only a description. -/
theorem postCourses_invalid_input_witness :
    app demoBcrypt 7 demoStore
        (Request.postCourses (some ⟨"bob@example.com", "pw2"⟩) [("description", JsVal.str "x")]) =
      (demoStore, some { status := 400, location := none,
                         body := Payload.error "Invalid input" (JsError.error "Invalid input") }) :=
  postCourses_invalid_input demoBcrypt 7 demoStore (some ⟨"bob@example.com", "pw2"⟩) bob
    [("description", JsVal.str "x")] (by decide) (Or.inl (by decide))

/-- C2, counterexample: Bob authenticates and sends `PUT /api/courses/1`
with an empty body; course 1 exists and belongs to Ada, yet the answer is
400 `Invalid input`, not 403: the body is checked before the owner. -/
theorem nonOwner_put_empty_body_is_400 :
    authenticateUser demoBcrypt demoStore (some ⟨"bob@example.com", "pw2"⟩) =
      AuthResult.next bob ∧
    Courses.findByPk demoStore 1 = some adaCourse ∧
    adaCourse.userId ≠ some bob.id ∧
    app demoBcrypt 9 demoStore
        (Request.putCourse (some ⟨"bob@example.com", "pw2"⟩) 1 []) =
      (demoStore, some { status := 400, location := none,
                         body := Payload.error "Invalid input" (JsError.error "Invalid input") }) := by
  decide

/-- C2, amended: for a course that exists and an authenticated user who is
not its owner, `DELETE /api/courses/:id` answers 403, `PUT /api/courses/:id`
with `title` and `description` present answers 403, and a `PUT` whose
`title` or `description` is missing or empty is answered 400 `Invalid input`
before the owner is looked at; in all three cases the database is left as it
was. -/
theorem nonOwner_forbidden (lib : Bcrypt) (now : Nat) (s : Store)
    (auth : Option Credentials) (u : User) (id : Nat) (c : Course) (body : ReqBody)
    (hauth : authenticateUser lib s auth = AuthResult.next u)
    (hfind : Courses.findByPk s id = some c)
    (hother : c.userId ≠ some u.id) :
    ((body.get "title").truthy = true → (body.get "description").truthy = true →
      app lib now s (Request.putCourse auth id body) =
        (s, some { status := 403, location := none, body := Payload.text "Forbidden" })) ∧
    (((body.get "title").truthy = false ∨ (body.get "description").truthy = false) →
      app lib now s (Request.putCourse auth id body) =
        (s, some { status := 400, location := none,
                   body := Payload.error "Invalid input" (JsError.error "Invalid input") })) ∧
    app lib now s (Request.deleteCourse auth id) =
      (s, some { status := 403, location := none, body := Payload.text "Forbidden" }) := by
  refine ⟨?_, ?_, ?_⟩
  · intro htitle hdesc
    simp [app, route, hauth, withAuth, putCourse, htitle, hdesc, hfind, hother, finish,
      sendStatus, statusMessage]
  · intro hmiss
    have hcond : ((body.get "title").truthy && (body.get "description").truthy) = false := by
      rcases hmiss with h | h <;> simp [h]
    simp [app, route, hauth, withAuth, putCourse, hcond, finish, errorHandler,
      JsError.message]
  · simp [app, route, hauth, withAuth, deleteCourse, hfind, hother, finish,
      sendStatus, statusMessage]

/-- Witness of C2, amended: Bob tries to rewrite the course of Ada, with a
full body and with a title only, and to delete it; the database stays. -/
theorem nonOwner_forbidden_witness :
    app demoBcrypt 9 demoStore
        (Request.putCourse (some ⟨"bob@example.com", "pw2"⟩) 1
          [("title", JsVal.str "Mine"), ("description", JsVal.str "now")]) =
      (demoStore, some { status := 403, location := none, body := Payload.text "Forbidden" }) ∧
    app demoBcrypt 9 demoStore
        (Request.putCourse (some ⟨"bob@example.com", "pw2"⟩) 1 [("title", JsVal.str "Mine")]) =
      (demoStore, some { status := 400, location := none,
                         body := Payload.error "Invalid input" (JsError.error "Invalid input") }) ∧
    app demoBcrypt 9 demoStore (Request.deleteCourse (some ⟨"bob@example.com", "pw2"⟩) 1) =
      (demoStore, some { status := 403, location := none, body := Payload.text "Forbidden" }) :=
  ⟨(nonOwner_forbidden demoBcrypt 9 demoStore (some ⟨"bob@example.com", "pw2"⟩) bob 1 adaCourse
      [("title", JsVal.str "Mine"), ("description", JsVal.str "now")]
      (by decide) (by decide) (by decide)).1 (by decide) (by decide),
   (nonOwner_forbidden demoBcrypt 9 demoStore (some ⟨"bob@example.com", "pw2"⟩) bob 1 adaCourse
      [("title", JsVal.str "Mine")] (by decide) (by decide) (by decide)).2.1
      (Or.inr (by decide)),
   (nonOwner_forbidden demoBcrypt 9 demoStore (some ⟨"bob@example.com", "pw2"⟩) bob 1 adaCourse
      [] (by decide) (by decide) (by decide)).2.2⟩

/-- C3, the code at the failing input: Bob, authenticated, addresses course
42, which does not exist.  Both `DELETE` and `PUT` (with title and
description) leave the database unchanged, but the final status is 500: the
read of `course.userId` throws, the `catch` forwards the error with the
status still 200, and the global error handler turns that into 500. -/
theorem missing_course_is_500 :
    Courses.findByPk demoStore 42 = none ∧
    app demoBcrypt 9 demoStore (Request.deleteCourse (some ⟨"bob@example.com", "pw2"⟩) 42) =
      (demoStore, some { status := 500, location := none,
                         body := Payload.error "Cannot read property 'userId' of null"
                           (JsError.typeError "Cannot read property 'userId' of null") }) ∧
    app demoBcrypt 9 demoStore
        (Request.putCourse (some ⟨"bob@example.com", "pw2"⟩) 42
          [("title", JsVal.str "T"), ("description", JsVal.str "D")]) =
      (demoStore, some { status := 500, location := none,
                         body := Payload.error "Cannot read property 'userId' of null"
                           (JsError.typeError "Cannot read property 'userId' of null") }) := by
  decide

/-- A text that passes `notEmpty` is not the empty string, so it is truthy. -/
theorem notEmpty_truthy {t : String} (h : notEmpty t = true) : (JsVal.str t).truthy = true := by
  have hne : t ≠ "" := by
    rintro rfl
    exact absurd h (by decide)
  simpa [JsVal.truthy] using hne

/-- Every element of a list is at most the running maximum over it. -/
theorem le_foldl_max (ids : List Nat) (a x : Nat) (hx : x ≤ a ∨ x ∈ ids) :
    x ≤ ids.foldl max a := by
  induction ids generalizing a with
  | nil =>
      rcases hx with h | h
      · simpa using h
      · simp at h
  | cons y ys ih =>
      simp only [List.foldl_cons]
      apply ih
      rcases hx with h | h
      · exact Or.inl (le_trans h (le_max_left a y))
      · rcases List.mem_cons.mp h with rfl | h
        · exact Or.inl (le_max_right a x)
        · exact Or.inr h

/-- The key handed out by `autoIncrement` is in no row of the table. -/
theorem nextId_fresh (seq : Nat) (ids : List Nat) (x : Nat) (hx : x ∈ ids) :
    x ≠ nextId seq ids := by
  have h1 := le_foldl_max ids 0 x (Or.inr hx)
  have h2 : ids.foldl max 0 ≤ max seq (ids.foldl max 0) := le_max_right _ _
  unfold nextId
  omega

/-- The schema check of an optional column passes unless the value is an
array or an object. -/
theorem schemaOptional_nil (field : String) {v : JsVal} (h : v ≠ JsVal.other) :
    schemaOptional field v = [] := by
  cases v <;> first | rfl | exact absurd rfl h

/-- C8, counterexample: Bob posts a course whose title is a single blank.
The title is present (a non-empty string is truthy), so the handler calls
`Courses.create`; the validator `notEmpty` of the model rejects it, the
`catch` sets 400, and no course is created.  On a body the model accepts the
201 response carries the reason phrase `Created` as its body. -/
theorem postCourses_blank_title_is_400 :
    (JsVal.str " ").truthy = true ∧ (JsVal.str "x").truthy = true ∧
    app demoBcrypt 9 demoStore
        (Request.postCourses (some ⟨"bob@example.com", "pw2"⟩)
          [("title", JsVal.str " "), ("description", JsVal.str "x")]) =
      (demoStore,
       some { status := 400, location := none,
              body := Payload.error "Validation error: Validation notEmpty on title failed"
                (JsError.validation
                  [⟨"Validation error", "Validation notEmpty on title failed"⟩]) }) ∧
    (app demoBcrypt 9 demoStore
        (Request.postCourses (some ⟨"bob@example.com", "pw2"⟩)
          [("title", JsVal.str "T"), ("description", JsVal.str "x")])).2 =
      some { status := 201, location := some "/api/courses/2",
             body := Payload.text "Created" } := by
  decide

/-- C8, amended: an authenticated `POST /api/courses` whose `title` and
`description` are texts with a character that is not whitespace, and whose
`estimatedTime` and `materialsNeeded` are each absent, null or a text,
creates exactly one course, with a key no course had: its `userId` is the id
of the authenticated user whatever else the body holds, its title and
description are those of the body, its two optional columns hold the texts
of the body (null when absent or null), and the response is 201 with
`Location` set to `/api/courses/` followed by the new key. -/
theorem postCourses_created (lib : Bcrypt) (now : Nat) (s : Store)
    (auth : Option Credentials) (u : User) (body : ReqBody) (t d : String)
    (hauth : authenticateUser lib s auth = AuthResult.next u)
    (htitle : body.get "title" = JsVal.str t) (hdesc : body.get "description" = JsVal.str d)
    (ht : notEmpty t = true) (hd : notEmpty d = true)
    (htime : body.get "estimatedTime" = JsVal.undefined ∨ body.get "estimatedTime" = JsVal.null ∨
      ∃ x, body.get "estimatedTime" = JsVal.str x)
    (hmat : body.get "materialsNeeded" = JsVal.undefined ∨
      body.get "materialsNeeded" = JsVal.null ∨ ∃ x, body.get "materialsNeeded" = JsVal.str x) :
    ∃ c : Course,
      (app lib now s (Request.postCourses auth body)).1 =
        { s with courses := s.courses ++ [c], courseSeq := c.id } ∧
      (∀ c0 ∈ s.courses, c0.id ≠ c.id) ∧
      c.userId = some u.id ∧ c.title = t ∧ c.description = d ∧
      c.estimatedTime = (body.get "estimatedTime").sqlText ∧
      c.materialsNeeded = (body.get "materialsNeeded").sqlText ∧
      ∃ r, (app lib now s (Request.postCourses auth body)).2 = some r ∧
        r.status = 201 ∧ r.location = some ("/api/courses/" ++ toString c.id) := by
  have hv : Courses.validate
      { userId := u.id, title := JsVal.str t, description := JsVal.str d,
        estimatedTime := body.get "estimatedTime",
        materialsNeeded := body.get "materialsNeeded" } = [] := by
    have h1 : body.get "estimatedTime" ≠ JsVal.other := by
      rcases htime with h | h | ⟨x, h⟩ <;> simp [h]
    have h2 : body.get "materialsNeeded" ≠ JsVal.other := by
      rcases hmat with h | h | ⟨x, h⟩ <;> simp [h]
    simp [Courses.validate, schemaRequired, checkNotEmpty, JsVal.jsString, ht, hd,
      schemaOptional_nil _ h1, schemaOptional_nil _ h2]
  refine ⟨{ id := nextId s.courseSeq (s.courses.map (fun c => c.id)),
            title := t, description := d,
            estimatedTime := (body.get "estimatedTime").sqlText,
            materialsNeeded := (body.get "materialsNeeded").sqlText,
            userId := some u.id, createdAt := now, updatedAt := now }, ?_, ?_, rfl, rfl, rfl,
          rfl, rfl, ?_⟩
  · simp [app, route, hauth, withAuth, postCourses, htitle, hdesc, notEmpty_truthy ht,
      notEmpty_truthy hd, Courses.create, hv, JsVal.sqlText]
  · intro c0 hc0
    exact nextId_fresh _ _ _ (List.mem_map.mpr ⟨c0, hc0, rfl⟩)
  · refine ⟨sendStatus 201 (some ("/api/courses/" ++
        toString (nextId s.courseSeq (s.courses.map (fun c => c.id))))), ?_, rfl, rfl⟩
    simp [app, route, hauth, withAuth, postCourses, htitle, hdesc, notEmpty_truthy ht,
      notEmpty_truthy hd, Courses.create, hv, JsVal.sqlText, finish]

/-- Witness of C8, amended: Bob posts a course and sends a `userId` of his
own choosing; the course is created with key 2 and owner Bob. -/
theorem postCourses_created_witness :
    ∃ c : Course,
      (app demoBcrypt 9 demoStore
        (Request.postCourses (some ⟨"bob@example.com", "pw2"⟩)
          [("userId", JsVal.num 1), ("title", JsVal.str "T"),
           ("description", JsVal.str "D")])).1 =
        { demoStore with courses := demoStore.courses ++ [c], courseSeq := c.id } ∧
      c.userId = some 2 ∧ c.title = "T" := by
  obtain ⟨c, h1, -, h3, h4, -⟩ :=
    postCourses_created demoBcrypt 9 demoStore (some ⟨"bob@example.com", "pw2"⟩) bob
      [("userId", JsVal.num 1), ("title", JsVal.str "T"), ("description", JsVal.str "D")]
      "T" "D" (by decide) (by decide) (by decide) (by decide) (by decide)
      (Or.inl (by decide)) (Or.inl (by decide))
  exact ⟨c, h1, h3, h4⟩

/-- Once nothing can match, reading more characters does not help. -/
theorem Regex.foldl_deriv_never (cs : List Char) :
    cs.foldl (fun r c => Regex.deriv c r) Regex.never = Regex.never := by
  induction cs with
  | nil => rfl
  | cons c cs ih => simpa [Regex.deriv] using ih

/-- No address starts with whitespace: the e-mail pattern has no
continuation after such a character. -/
theorem deriv_emailPattern_space (c : Char) (hc : isJsSpace c = true) :
    Regex.deriv c emailPattern = Regex.never := by
  have hatom : isAtomChar c = false := by simp [isAtomChar, hc]
  have hquote : (c == '"') = false := by
    cases hq : (c == '"') with
    | false => rfl
    | true =>
        have : c = '"' := by simpa using hq
        subst this
        exact absurd hc (by decide)
  simp [emailPattern, emailLocal, Regex.deriv, Regex.nullable, Regex.plus, Regex.lit,
    Regex.mkSeq, Regex.mkAlt, hatom, hquote]

/-- A text that matches the e-mail pattern is not made of whitespace only,
so it also passes `notEmpty`. -/
theorem validateEmail_notEmpty {e : String} (h : validateEmail (JsVal.str e) = true) :
    notEmpty e = true := by
  unfold validateEmail Regex.test Regex.matchesList at h
  simp only [JsVal.jsString] at h
  unfold notEmpty
  cases hdata : e.data with
  | nil =>
      rw [hdata] at h
      exact absurd h (by decide)
  | cons c cs =>
      rw [hdata] at h
      cases hc : isJsSpace c with
      | false => simp [hc]
      | true =>
          simp only [List.foldl_cons, deriv_emailPattern_space c hc,
            Regex.foldl_deriv_never] at h
          exact absurd h (by decide)

/-- C4, counterexample: all four fields are provided and no user has the
address, but the address does not match the pattern of `validateEmail`:
`Users.create` rejects the record, the `catch` sets 400 and no user is
added.  On a body the model accepts the 201 response carries the reason
phrase `Created` as its body. -/
theorem postUsers_bad_email_is_400 :
    (∀ u ∈ demoStore.users, u.emailAddress ≠ "not-an-email") ∧
    app demoBcrypt 9 demoStore
        (Request.postUsers
          [("firstName", JsVal.str "Eve"), ("lastName", JsVal.str "Hill"),
           ("emailAddress", JsVal.str "not-an-email"), ("password", JsVal.str "secret")]) =
      (demoStore,
       some { status := 400, location := none,
              body := Payload.error "Validation error: Invalid email address"
                (JsError.validation [⟨"Validation error", "Invalid email address"⟩]) }) ∧
    (app demoBcrypt 9 demoStore
        (Request.postUsers
          [("firstName", JsVal.str "Eve"), ("lastName", JsVal.str "Hill"),
           ("emailAddress", JsVal.str "eve@example.com"),
           ("password", JsVal.str "secret")])).2 =
      some { status := 201, location := some "/", body := Payload.text "Created" } := by
  decide

/-- C4, amended: when `firstName`, `lastName`, `emailAddress` and `password`
are non-empty texts, the two names have a character that is not whitespace,
the address matches the pattern of `validateEmail`, and no user has that
address, the first `POST /api/users` answers 201 with `Location` `/` and
adds exactly one user, with a key no user had, whose password is the bcrypt
hash of the plaintext; the same payload sent again answers 409 and adds
nothing, so exactly one user has that address. -/
theorem postUsers_created_then_conflict (lib : Bcrypt) (now later : Nat) (s : Store)
    (body : ReqBody) (f l e p : String)
    (hfirst : body.get "firstName" = JsVal.str f) (hlast : body.get "lastName" = JsVal.str l)
    (hmail : body.get "emailAddress" = JsVal.str e) (hpass : body.get "password" = JsVal.str p)
    (hf : notEmpty f = true) (hl : notEmpty l = true)
    (he : validateEmail (JsVal.str e) = true) (hp : p ≠ "")
    (hnew : ∀ u ∈ s.users, u.emailAddress ≠ e) :
    ∃ u : User,
      (app lib now s (Request.postUsers body)).1 =
        { s with users := s.users ++ [u], userSeq := u.id } ∧
      (∃ r, (app lib now s (Request.postUsers body)).2 = some r ∧
        r.status = 201 ∧ r.location = some "/") ∧
      (∀ u0 ∈ s.users, u0.id ≠ u.id) ∧
      u.firstName = f ∧ u.lastName = l ∧ u.emailAddress = e ∧
      u.password = lib.hashSync p ∧
      app lib later (app lib now s (Request.postUsers body)).1 (Request.postUsers body) =
        ((app lib now s (Request.postUsers body)).1,
         some { status := 409, location := none,
                body := Payload.error ("User with email " ++ e ++ " already exists!")
                  (JsError.error ("User with email " ++ e ++ " already exists!")) }) ∧
      ((app lib now s (Request.postUsers body)).1.users.filter
        (fun v => v.emailAddress == e)).length = 1 := by
  have hne := validateEmail_notEmpty he
  have hpt : (JsVal.str p).truthy = true := by simpa [JsVal.truthy] using hp
  have hv : Users.validate
      { firstName := JsVal.str f, lastName := JsVal.str l, emailAddress := JsVal.str e,
        password := JsVal.str (lib.hashSync p) } = [] := by
    simp [Users.validate, schemaRequired, checkNotEmpty, checkEmail, JsVal.jsString, hf, hl,
      hne, he, lib.hash_notEmpty p]
  have hnone : Users.findOneWhere s (JsVal.str e) = none := by
    simp only [Users.findOneWhere, JsVal.sqlText]
    exact Users.findOne_none.mpr hnew
  let u : User :=
    { id := nextId s.userSeq (s.users.map (fun u => u.id)),
      firstName := f, lastName := l, emailAddress := e, password := lib.hashSync p,
      createdAt := now, updatedAt := now }
  have hstore : (app lib now s (Request.postUsers body)).1 =
      { s with users := s.users ++ [u], userSeq := u.id } := by
    simp [app, route, postUsers, hfirst, hlast, hmail, hpass, notEmpty_truthy hf,
      notEmpty_truthy hl, notEmpty_truthy hne, hpt, hnone, Bcrypt.hashSyncVal, Users.create,
      hv, JsVal.sqlText, u]
  have hfilter : (s.users ++ [u]).filter (fun v => v.emailAddress == e) = [u] := by
    have h0 : s.users.filter (fun v => v.emailAddress == e) = [] := by
      simp only [List.filter_eq_nil_iff]
      intro v hv'
      simpa using hnew v hv'
    simp [List.filter_append, h0, u]
  have hfound : Users.findOneWhere
      { s with users := s.users ++ [u], userSeq := u.id } (JsVal.str e) = some u := by
    have h0 : s.users.find? (fun v => v.emailAddress == e) = none := Users.findOne_none.mpr hnew
    simp [Users.findOneWhere, JsVal.sqlText, Users.findOne, List.find?_append, h0, u]
  refine ⟨u, hstore, ?_, ?_, rfl, rfl, rfl, rfl, ?_, ?_⟩
  · refine ⟨sendStatus 201 (some "/"), ?_, rfl, rfl⟩
    simp [app, route, postUsers, hfirst, hlast, hmail, hpass, notEmpty_truthy hf,
      notEmpty_truthy hl, notEmpty_truthy hne, hpt, hnone, Bcrypt.hashSyncVal, Users.create,
      hv, JsVal.sqlText, finish]
  · intro u0 hu0
    exact nextId_fresh _ _ _ (List.mem_map.mpr ⟨u0, hu0, rfl⟩)
  · rw [hstore]
    simp [app, route, postUsers, hfirst, hlast, hmail, hpass, notEmpty_truthy hf,
      notEmpty_truthy hl, notEmpty_truthy hne, hpt, hfound, finish, errorHandler,
      JsError.message, JsVal.jsString]
  · rw [hstore]
    simp only [hfilter, List.length_singleton]

/-- Witness of C4, amended: Eve registers in the demo database. -/
theorem postUsers_created_then_conflict_witness :
    ∃ u : User,
      (app demoBcrypt 9 demoStore
        (Request.postUsers
          [("firstName", JsVal.str "Eve"), ("lastName", JsVal.str "Hill"),
           ("emailAddress", JsVal.str "eve@example.com"),
           ("password", JsVal.str "secret")])).1 =
        { demoStore with users := demoStore.users ++ [u], userSeq := u.id } ∧
      u.emailAddress = "eve@example.com" ∧ u.password = "$2b$10$secret" := by
  obtain ⟨u, h1, -, -, -, -, h6, h7, -⟩ :=
    postUsers_created_then_conflict demoBcrypt 9 10 demoStore
      [("firstName", JsVal.str "Eve"), ("lastName", JsVal.str "Hill"),
       ("emailAddress", JsVal.str "eve@example.com"), ("password", JsVal.str "secret")]
      "Eve" "Hill" "eve@example.com" "secret" (by decide) (by decide) (by decide) (by decide)
      (by decide) (by decide) (by decide) (by decide) (by decide)
  exact ⟨u, h1, h6, h7⟩

/-- The user attached by the middleware is a row of `Users`. -/
theorem authenticateUser_next_mem {lib : Bcrypt} {s : Store} {auth : Option Credentials}
    {u : User} (h : authenticateUser lib s auth = AuthResult.next u) : u ∈ s.users := by
  cases auth with
  | none => simp [authenticateUser] at h
  | some c =>
      cases hfind : Users.findOne s c.name with
      | none => simp [authenticateUser, hfind] at h
      | some v =>
          by_cases hcmp : lib.compareSync c.pass v.password = true
          · simp [authenticateUser, hfind, hcmp] at h
            subst h
            exact (Users.findOne_some hfind).1
          · simp [authenticateUser, hfind, hcmp] at h

/-- Ownership survives when users are only added and courses stay. -/
theorem OwnersExist.mono {s s1 : Store} (h : OwnersExist s)
    (husers : ∀ u ∈ s.users, u ∈ s1.users) (hcourses : s1.courses = s.courses) :
    OwnersExist s1 := by
  intro c hc
  rw [hcourses] at hc
  obtain ⟨u, hu, hid⟩ := h c hc
  exact ⟨u, husers u hu, hid⟩

/-- Registration keeps ownership: it adds at most a user. -/
theorem postUsers_owners (lib : Bcrypt) (now : Nat) (s : Store) (body : ReqBody)
    (h : OwnersExist s) : OwnersExist (postUsers lib now s body).1 := by
  unfold postUsers
  simp only
  split
  · split
    · exact h
    · split
      · exact h
      · split
        · rename_i u s1 hcreate
          unfold Users.create at hcreate
          split at hcreate
          · simp only [Except.ok.injEq, Prod.mk.injEq] at hcreate
            obtain ⟨-, rfl⟩ := hcreate
            exact h.mono (fun v hv => List.mem_append_left _ hv) rfl
          · simp at hcreate
        · exact h
  · exact h

/-- Creating a course keeps ownership: the new course belongs to the
authenticated user. -/
theorem postCourses_owners (now : Nat) (s : Store) (u : User) (body : ReqBody)
    (hu : u ∈ s.users) (h : OwnersExist s) : OwnersExist (postCourses now s u body).1 := by
  unfold postCourses
  simp only
  split
  · split
    · rename_i c s1 hcreate
      unfold Courses.create at hcreate
      split at hcreate
      · simp only [Except.ok.injEq, Prod.mk.injEq] at hcreate
        obtain ⟨-, rfl⟩ := hcreate
        intro c0 hc0
        rcases List.mem_append.mp hc0 with hc0 | hc0
        · exact h c0 hc0
        · rw [List.mem_singleton.mp hc0]
          exact ⟨u, hu, rfl⟩
      · simp at hcreate
    · exact h
  · exact h

/-- Updating a course keeps ownership: a rewritten row belongs to the
authenticated user. -/
theorem putCourse_owners (now : Nat) (s : Store) (u : User) (id : Nat) (body : ReqBody)
    (hu : u ∈ s.users) (h : OwnersExist s) : OwnersExist (putCourse now s u id body).1 := by
  unfold putCourse
  simp only
  split
  · split
    · exact h
    · split
      · split
        · rename_i s1 hupd
          unfold Courses.update at hupd
          split at hupd
          · simp only [Except.ok.injEq] at hupd
            subst hupd
            intro c0 hc0
            obtain ⟨c1, hc1, rfl⟩ := List.mem_map.mp hc0
            by_cases hid : (c1.id == id) = true
            · simp only [hid, if_true]
              exact ⟨u, hu, rfl⟩
            · simp only [hid]
              exact h c1 hc1
          · simp at hupd
        · exact h
      · exact h
  · exact h

/-- Deleting a course keeps ownership. -/
theorem deleteCourse_owners (s : Store) (u : User) (id : Nat) (h : OwnersExist s) :
    OwnersExist (deleteCourse s u id).1 := by
  unfold deleteCourse
  split
  · exact h
  · split
    · intro c0 hc0
      exact h c0 (List.mem_filter.mp hc0).1
    · exact h

/-- A guarded route keeps ownership when its handler does for every user of
the database. -/
theorem withAuth_owners {lib : Bcrypt} {s : Store} {auth : Option Credentials}
    {k : User → Store × Outcome} (h : OwnersExist s)
    (hk : ∀ u ∈ s.users, OwnersExist (k u).1) :
    OwnersExist (withAuth (authenticateUser lib s auth) s k).1 := by
  cases hres : authenticateUser lib s auth with
  | rejected r => exact h
  | failed st err => exact h
  | next u => exact hk u (authenticateUser_next_mem hres)

/-- Every request keeps ownership. -/
theorem app_owners (lib : Bcrypt) (now : Nat) (s : Store) (req : Request)
    (h : OwnersExist s) : OwnersExist (app lib now s req).1 := by
  unfold app
  simp only
  cases req with
  | root => exact h
  | getUsers auth => exact withAuth_owners h (fun _ _ => h)
  | postUsers body => exact postUsers_owners lib now s body h
  | getCourses => exact h
  | getCourse id => exact h
  | postCourses auth body =>
      exact withAuth_owners h (fun u hu => postCourses_owners now s u body hu h)
  | putCourse auth id body =>
      exact withAuth_owners h (fun u hu => putCourse_owners now s u id body hu h)
  | deleteCourse auth id =>
      exact withAuth_owners h (fun u _ => deleteCourse_owners s u id h)
  | unmatched => exact h

/-- C6: in every database reachable from the empty one through requests of
the API, the `userId` of every course is the id of a user of the database;
hence every course of the list response, and the course of every single
response, is joined with a user of the database that has this id. -/
theorem reachable_owners_exist (lib : Bcrypt) (s : Store) (h : Reachable lib s) :
    (∀ c ∈ s.courses, ∃ u ∈ s.users, c.userId = some u.id) ∧
    (∀ now, ∃ js, (app lib now s Request.getCourses).2 =
        some { status := 200, location := none, body := Payload.courses js } ∧
      js.length = s.courses.length ∧
      ∀ j ∈ js, ∃ v ∈ s.users, j.userId = some v.id ∧ j.owner = some (userJson v)) ∧
    (∀ now id c, Courses.findByPk s id = some c →
      ∃ v ∈ s.users, c.userId = some v.id ∧
        (app lib now s (Request.getCourse id)).2 =
          some { status := 200, location := none,
                 body := Payload.course { courseJson s c with owner := some (userJson v) } }) := by
  have hinv : OwnersExist s := by
    induction h with
    | init =>
        intro c hc
        simp [Store.empty] at hc
    | step now req _ ih => exact app_owners lib now _ req ih
  have hjoin : ∀ c ∈ s.courses, ∃ v ∈ s.users, c.userId = some v.id ∧
      (courseJson s c).owner = some (userJson v) := by
    intro c hc
    obtain ⟨u, hu, hid⟩ := hinv c hc
    obtain ⟨v, hv, hvm, hvid⟩ := Users.findByPk_of_mem hu
    exact ⟨v, hvm, by rw [hid, hvid], by simp [courseJson, hid, hv]⟩
  refine ⟨hinv, ?_, ?_⟩
  · intro now
    refine ⟨s.courses.map (courseJson s), rfl, by simp, ?_⟩
    intro j hj
    obtain ⟨c, hc, rfl⟩ := List.mem_map.mp hj
    exact hjoin c hc
  · intro now id c hfind
    obtain ⟨v, hv, hid, hown⟩ := hjoin c (Courses.findByPk_some hfind).1
    refine ⟨v, hv, hid, ?_⟩
    simp [app, route, getCourse, hfind, finish, ← hown]

/-- Witness of C6: after Eve registered and created a course the database
holds one course, and its owner exists. -/
theorem reachable_owners_exist_witness :
    eveStore.courses.length = 1 ∧
    ∀ c ∈ eveStore.courses, ∃ u ∈ eveStore.users, c.userId = some u.id :=
  ⟨by decide,
   (reachable_owners_exist demoBcrypt eveStore
      (Reachable.step 2 _ (Reachable.step 1 _ Reachable.init))).1⟩

end Unit9
